import Mathlib

/-!
Shallow embedding of the array <-> mesh-representation conversion core of
`meshparty/trimesh_vtk.py`: the flat cell codec (`numpy_to_vtk_cells`,
`vtk_cellarray_to_shape`), mesh/graph assembly with index validation
(`numpy_rep_to_vtk`, `trimesh_to_vtk`, `graph_to_vtk`), vertex compaction
(`remove_unused_verts`) and decomposition (`poly_to_mesh_components`).

Modelling conventions:
* a numpy 2-D integer matrix is a list of rows together with its stored
  column count (`shape[1]` is defined even when there are zero rows);
  well-formedness (`NpIntMat.WF`) says every row has that length;
* vertex index entries are `Nat` (the module's invariant is indices in
  `[0, V)`);
* a `vtkCellArray` is its cell count together with its flat id data
  (`SetCells(n, data)` / `GetData()`);
* a `vtkPolyData` is its point data plus optional poly and line cell
  arrays (`GetNumberOfPolys` is 0 when no polys were set);
* Python exceptions become `Except`/`Option` failures: `dimension` for the
  width-mismatch ValueError, `indexRange i` for the out-of-bounds ValueError
  whose message formats in the offending max index `i`, `emptyMax` for the
  ValueError numpy raises in `np.max` on a zero-size array; in the decoder,
  `none` stands for the reshape/zero-division errors.
-/

namespace MeshParty

/-- A numpy-style 2-D integer matrix: rows plus the stored column count. -/
structure NpIntMat where
  rows : List (List Nat)
  ncols : Nat
deriving DecidableEq, Repr

/-- Rectangularity: every row has length `ncols` (true of every real numpy array). -/
def NpIntMat.WF (m : NpIntMat) : Prop :=
  ∀ r ∈ m.rows, r.length = m.ncols

instance (m : NpIntMat) : Decidable m.WF := by
  unfold NpIntMat.WF; infer_instance

/-- A `vtkCellArray`: cell count and flat id data, as set by `SetCells`. -/
structure CellArrayV where
  ncells : Nat
  data : List Nat
deriving DecidableEq, Repr

/-- A `vtkPolyData`: point data plus optional polys / lines cell arrays. -/
structure PolyData where
  points : List (List Int)
  polys : Option CellArrayV
  lines : Option CellArrayV
deriving DecidableEq, Repr

/-- `GetNumberOfPolys`: cell count of the polys array, 0 when unset. -/
def PolyData.numberOfPolys (p : PolyData) : Nat :=
  match p.polys with
  | none => 0
  | some c => c.ncells

/-- `GetNumberOfLines`: cell count of the lines array, 0 when unset. -/
def PolyData.numberOfLines (p : PolyData) : Nat :=
  match p.lines with
  | none => 0
  | some c => c.ncells

/-- `GetPolys().GetData()`: flat data of the polys array, empty when unset. -/
def PolyData.polysData (p : PolyData) : List Nat :=
  match p.polys with
  | none => []
  | some c => c.data

/-- `GetLines().GetData()`: flat data of the lines array, empty when unset. -/
def PolyData.linesData (p : PolyData) : List Nat :=
  match p.lines with
  | none => []
  | some c => c.data

instance {ε α : Type} [DecidableEq ε] [DecidableEq α] : DecidableEq (Except ε α) := fun x y =>
  match x, y with
  | .error a, .error b =>
    match decEq a b with
    | isTrue h => isTrue (by rw [h])
    | isFalse h => isFalse (fun hh => h (by injection hh))
  | .ok a, .ok b =>
    match decEq a b with
    | isTrue h => isTrue (by rw [h])
    | isFalse h => isFalse (fun hh => h (by injection hh))
  | .error _, .ok _ => isFalse (fun hh => Except.noConfusion hh)
  | .ok _, .error _ => isFalse (fun hh => Except.noConfusion hh)

/-- Errors raised by the assembly functions (all `ValueError` in the source):
`dimension` for a cell-width mismatch, `indexRange i` for an out-of-bounds
index whose message formats in the offending max index `i`, `emptyMax` for
numpy's reduction error when `np.max` is applied to a zero-size array. -/
inductive VtkErr where
  | dimension
  | indexRange (i : Nat)
  | emptyMax
deriving DecidableEq, Repr

/-- `numpy_to_vtk_cells(mat)`: prefix each row with the row width
`mat.shape[1]` and flatten (`np.hstack((ones(M)*n_dim, mat)).ravel()`),
storing the result with the cell count via `SetCells`. -/
def numpy_to_vtk_cells (m : NpIntMat) : CellArrayV :=
  ⟨m.rows.length, (m.rows.map (fun r => m.ncols :: r)).flatten⟩

/-- `numpy_rep_to_vtk(vertices, shapes, edges)`: polydata holding the points,
the encoded shapes cell array, and the encoded edges when `edges` is given
and non-empty (`len(edges) > 0`), else `None`. -/
def numpy_rep_to_vtk (vertices : List (List Int)) (shapes : NpIntMat)
    (edges : Option NpIntMat) : PolyData × CellArrayV × Option CellArrayV :=
  (⟨vertices, none, none⟩, numpy_to_vtk_cells shapes,
    match edges with
    | none => none
    | some e => if 0 < e.rows.length then some (numpy_to_vtk_cells e) else none)

/-- `np.max` over all entries of a matrix (its raveled entries): `none` models
the ValueError numpy raises on a zero-size array. -/
def np_max : List Nat → Option Nat
  | [] => none
  | x :: xs =>
    match np_max xs with
    | none => some x
    | some m => some (Nat.max x m)

/-- `graph_to_vtk(vertices, edges)`: require `edges.shape[1] == 2`, require
`np.max(edges) < len(vertices)`, then build the polydata and set the encoded
edges as its lines. -/
def graph_to_vtk (vertices : List (List Int)) (edges : NpIntMat) :
    Except VtkErr PolyData :=
  if edges.ncols ≠ 2 then .error .dimension
  else
    match np_max edges.rows.flatten with
    | none => .error .emptyMax
    | some m =>
      if vertices.length ≤ m then .error (.indexRange m)
      else
        let r := numpy_rep_to_vtk vertices edges none
        .ok ⟨r.1.points, r.1.polys, some r.2.1⟩

/-- `trimesh_to_vtk(vertices, tris, graph_edges)`: require
`tris.shape[1] == 3`, require `np.max(tris) < len(vertices)`, then build the
polydata, set the encoded tris as its polys and, when edges were attached by
`numpy_rep_to_vtk`, set them as its lines. `graph_edges` itself is never
validated. -/
def trimesh_to_vtk (vertices : List (List Int)) (tris : NpIntMat)
    (graph_edges : Option NpIntMat) : Except VtkErr PolyData :=
  if tris.ncols ≠ 3 then .error .dimension
  else
    match np_max tris.rows.flatten with
    | none => .error .emptyMax
    | some m =>
      if vertices.length ≤ m then .error (.indexRange m)
      else
        let r := numpy_rep_to_vtk vertices tris graph_edges
        .ok ⟨r.1.points, some r.2.1, r.2.2⟩

/-- numpy `reshape(ncells, w)` of a flat list (used under the guard
`len = ncells * w`): row `i` is the slice `[i*w, (i+1)*w)`. -/
def np_reshape (flat : List Nat) (ncells w : Nat) : List (List Nat) :=
  (List.range ncells).map (fun i => (flat.drop (i * w)).take w)

/-- `vtk_cellarray_to_shape(vtk_cellarray, ncells)`: reshape the flat data to
`(ncells, len/ncells)` and drop the first (width-prefix) column. `none`
models the ZeroDivisionError at `ncells = 0` and the reshape ValueError when
the length is not divisible by `ncells`. -/
def vtk_cellarray_to_shape (flat : List Nat) (ncells : Nat) :
    Option (List (List Nat)) :=
  if ncells = 0 then none
  else if flat.length % ncells = 0 then
    some ((np_reshape flat ncells (flat.length / ncells)).map (fun r => r.drop 1))
  else none

/-- `np.unique(l)`: the sorted list of distinct values. -/
def np_unique (l : List Nat) : List Nat :=
  List.insertionSort (· ≤ ·) l.dedup

/-- `np.searchsorted(l, x)` (left side, `l` sorted): the number of entries of
`l` strictly below `x`. -/
def np_searchsorted (l : List Nat) (x : Nat) : Nat :=
  l.countP (fun u => decide (u < x))

/-- numpy row fancy-indexing `verts[ixs, :]`: `none` models the IndexError
raised when some index is out of range. -/
def selectRows (verts : List α) : List Nat → Option (List α)
  | [] => some []
  | i :: is =>
    match verts.get? i, selectRows verts is with
    | some v, some vs => some (v :: vs)
    | _, _ => none

/-- `remove_unused_verts(verts, faces)`: keep the rows of `verts` at the
sorted distinct indices appearing in `faces` (`np.unique(faces.ravel())`)
and remap each entry of `faces` by `np.searchsorted` into that sorted set;
the result faces array is allocated with `faces.shape`. -/
def remove_unused_verts (verts : List α) (faces : NpIntMat) :
    Option (List α × NpIntMat) :=
  match selectRows verts (np_unique faces.rows.flatten) with
  | none => none
  | some nv =>
    some (nv, ⟨faces.rows.map (fun row =>
      row.map (np_searchsorted (np_unique faces.rows.flatten))), faces.ncols⟩)

/-- One component of `poly_to_mesh_components`: decode the cell array when
its count is positive, return `None` when the count is zero; the outer
`Option` propagates decoder failure. -/
def decode_component (data : List Nat) (n : Nat) :
    Option (Option (List (List Nat))) :=
  if 0 < n then (vtk_cellarray_to_shape data n).map some else some none

/-- `poly_to_mesh_components(poly)`: the points, the decoded polys when
`GetNumberOfPolys() > 0` else `None`, and the decoded lines when
`GetNumberOfLines() > 0` else `None`. -/
def poly_to_mesh_components (p : PolyData) :
    Option (List (List Int) × Option (List (List Nat)) × Option (List (List Nat))) :=
  match decode_component p.polysData p.numberOfPolys,
        decode_component p.linesData p.numberOfLines with
  | some t, some e => some (p.points, t, e)
  | _, _ => none

/-! ### Helper lemmas -/

lemma length_flatten_uniform (rows : List (List Nat)) (w : Nat)
    (h : ∀ r ∈ rows, r.length = w) : rows.flatten.length = rows.length * w := by
  induction rows with
  | nil => simp
  | cons r t ih =>
    simp only [List.flatten_cons, List.length_append, List.length_cons]
    rw [h r (List.mem_cons_self r t), ih (fun s hs => h s (List.mem_cons_of_mem r hs))]
    ring

lemma np_reshape_flatten (rows : List (List Nat)) (w : Nat)
    (h : ∀ r ∈ rows, r.length = w) :
    np_reshape rows.flatten rows.length w = rows := by
  induction rows with
  | nil => simp [np_reshape]
  | cons r t ih =>
    have hr : r.length = w := h r (List.mem_cons_self r t)
    unfold np_reshape
    rw [List.length_cons, List.range_succ_eq_map]
    simp only [List.map_cons, List.map_map, List.flatten_cons]
    rw [Nat.zero_mul, List.drop_zero, List.take_left' hr]
    congr 1
    have hdrop : ∀ i : Nat, (r ++ t.flatten).drop (Nat.succ i * w)
        = t.flatten.drop (i * w) := by
      intro i
      rw [Nat.succ_mul, Nat.add_comm, ← List.drop_drop, List.drop_left' hr]
    have hih := ih (fun s hs => h s (List.mem_cons_of_mem r hs))
    unfold np_reshape at hih
    have hmap : List.map ((fun i => List.take w (List.drop (i * w) (r ++ t.flatten))) ∘ Nat.succ)
          (List.range t.length)
        = List.map (fun i => List.take w (List.drop (i * w) t.flatten)) (List.range t.length) := by
      apply List.map_congr_left
      intro i _
      simp only [Function.comp_apply, hdrop i]
    rw [hmap, hih]

/-- Decoding an encoded well-formed matrix with its own row count recovers
the rows, provided there is at least one row. -/
lemma decode_encode (m : NpIntMat) (hwf : m.WF) (hne : m.rows ≠ []) :
    vtk_cellarray_to_shape (numpy_to_vtk_cells m).data m.rows.length
      = some m.rows := by
  have hpref : ∀ r ∈ m.rows.map (fun r => m.ncols :: r), r.length = m.ncols + 1 := by
    intro r hr
    obtain ⟨s, hs, rfl⟩ := List.mem_map.1 hr
    simp [hwf s hs]
  have hlen : (numpy_to_vtk_cells m).data.length = m.rows.length * (m.ncols + 1) := by
    have := length_flatten_uniform (m.rows.map (fun r => m.ncols :: r)) (m.ncols + 1) hpref
    simpa [numpy_to_vtk_cells] using this
  have hM : m.rows.length ≠ 0 := by simpa [List.length_eq_zero] using hne
  unfold vtk_cellarray_to_shape
  rw [if_neg hM, hlen, Nat.mul_mod_right, if_pos rfl,
    Nat.mul_div_cancel_left _ (Nat.pos_of_ne_zero hM)]
  have hresh : np_reshape (numpy_to_vtk_cells m).data m.rows.length (m.ncols + 1)
      = m.rows.map (fun r => m.ncols :: r) := by
    have := np_reshape_flatten (m.rows.map (fun r => m.ncols :: r)) (m.ncols + 1) hpref
    simpa [numpy_to_vtk_cells] using this
  rw [hresh, List.map_map]
  have hid : ((fun r : List Nat => r.drop 1) ∘ (fun r => m.ncols :: r)) = id := by
    funext r
    simp
  rw [hid, List.map_id]

lemma np_max_spec : ∀ {l : List Nat} {m : Nat}, np_max l = some m →
    m ∈ l ∧ ∀ x ∈ l, x ≤ m := by
  intro l
  induction l with
  | nil => intro m h; simp [np_max] at h
  | cons a t ih =>
    intro m h
    unfold np_max at h
    cases ht : np_max t with
    | none =>
      rw [ht] at h
      cases t with
      | nil =>
        simp at h
        subst h
        exact ⟨List.mem_cons_self _ _, by intro x hx; simp at hx; omega⟩
      | cons b s => simp [np_max] at ht; cases ht' : np_max s <;> simp [ht'] at ht
    | some k =>
      rw [ht] at h
      simp at h
      obtain ⟨hk, hub⟩ := ih ht
      constructor
      · rcases Nat.le_total a k with hak | hka
        · have hm : m = k := by rw [← h]; exact Nat.max_eq_right hak
          rw [hm]; exact List.mem_cons_of_mem a hk
        · have hm : m = a := by rw [← h]; exact Nat.max_eq_left hka
          rw [hm]; exact List.mem_cons_self a t
      · intro x hx
        rcases List.mem_cons.1 hx with rfl | hxt
        · rw [← h]; exact Nat.le_max_left _ _
        · rw [← h]; exact Nat.le_trans (hub x hxt) (Nat.le_max_right _ _)

lemma np_max_isSome (a : Nat) (t : List Nat) : ∃ m, np_max (a :: t) = some m := by
  unfold np_max
  cases np_max t <;> simp

/-- If `v` belongs to `l` and bounds every element, it is `np.max l`. -/
lemma np_max_eq_of {l : List Nat} {v : Nat} (hmem : v ∈ l)
    (hub : ∀ x ∈ l, x ≤ v) : np_max l = some v := by
  cases l with
  | nil => simp at hmem
  | cons a t =>
    obtain ⟨m, hm⟩ := np_max_isSome a t
    obtain ⟨hmmem, hmub⟩ := np_max_spec hm
    have : m = v := Nat.le_antisymm (hub m hmmem) (hmub v hmem)
    rw [hm, this]

lemma mem_np_unique {l : List Nat} {x : Nat} : x ∈ np_unique l ↔ x ∈ l := by
  rw [np_unique, (List.perm_insertionSort _ _).mem_iff, List.mem_dedup]

lemma np_unique_nodup (l : List Nat) : (np_unique l).Nodup :=
  ((List.perm_insertionSort _ _).nodup_iff).2 (List.nodup_dedup l)

lemma np_unique_sorted (l : List Nat) : List.Sorted (· < ·) (np_unique l) :=
  List.Sorted.lt_of_le (List.sorted_insertionSort _ _) (np_unique_nodup l)

/-- For a strictly sorted list, `np.searchsorted` sends the element at
position `i` back to `i`. -/
lemma np_searchsorted_getElem (l : List Nat) (hs : List.Sorted (· < ·) l) :
    ∀ (i : Nat) (h : i < l.length), np_searchsorted l l[i] = i := by
  induction l with
  | nil => intro i h; simp at h
  | cons a t ih =>
    have hbelow := (List.sorted_cons.1 hs).1
    have hst := (List.sorted_cons.1 hs).2
    intro i h
    cases i with
    | zero =>
      simp only [List.getElem_cons_zero]
      unfold np_searchsorted
      rw [List.countP_cons]
      simp only [decide_eq_true_eq, Nat.lt_irrefl, if_false]
      have : t.countP (fun u => decide (u < a)) = 0 := by
        rw [List.countP_eq_zero]
        intro x hx
        simp only [decide_eq_true_eq]
        exact Nat.not_lt.2 (Nat.le_of_lt (hbelow x hx))
      simpa [np_searchsorted] using this
    | succ j =>
      have hj : j < t.length := by simpa using h
      simp only [List.getElem_cons_succ]
      unfold np_searchsorted
      rw [List.countP_cons]
      have ha : a < t[j] := hbelow _ (List.getElem_mem hj)
      simp only [decide_eq_true_eq, ha, if_true]
      have := ih hst j hj
      unfold np_searchsorted at this
      omega

/-- For a member of a list, its searchsorted rank is strictly below the
list length. -/
lemma np_searchsorted_lt_length {l : List Nat} {x : Nat} (hx : x ∈ l) :
    np_searchsorted l x < l.length := by
  unfold np_searchsorted
  rw [List.countP_eq_length_filter]
  apply List.length_filter_lt_length_iff_exists.2
  exact ⟨x, hx, by simp⟩

/-- On a strictly sorted list, `np.searchsorted` of a member is its index. -/
lemma np_searchsorted_indexOf {l : List Nat} {x : Nat}
    (hs : List.Sorted (· < ·) l) (hx : x ∈ l) :
    np_searchsorted l x = l.indexOf x := by
  have hlt : l.indexOf x < l.length := List.indexOf_lt_length.2 hx
  have hget : l[l.indexOf x] = x := List.getElem_indexOf hlt
  have := np_searchsorted_getElem l hs (l.indexOf x) hlt
  rw [hget] at this
  exact this

lemma selectRows_spec (verts : List α) :
    ∀ (ixs : List Nat), (∀ i ∈ ixs, i < verts.length) →
    ∃ v, selectRows verts ixs = some v ∧ v.length = ixs.length ∧
      ∀ (k i : Nat), ixs[k]? = some i → v[k]? = verts[i]? := by
  intro ixs
  induction ixs with
  | nil => intro _; exact ⟨[], rfl, rfl, by intro k i h; simp at h⟩
  | cons j t ih =>
    intro hb
    obtain ⟨v, hv, hvl, hvget⟩ := ih (fun i hi => hb i (List.mem_cons_of_mem j hi))
    have hj : j < verts.length := hb j (List.mem_cons_self j t)
    have hjget : verts.get? j = some verts[j] := by
      rw [List.get?_eq_getElem?, List.getElem?_eq_getElem hj]
    refine ⟨verts[j] :: v, ?_, by simp [hvl], ?_⟩
    · unfold selectRows
      rw [hjget, hv]
    · intro k i hk
      cases k with
      | zero =>
        simp at hk
        subst hk
        simp [List.getElem?_eq_getElem hj]
      | succ k' =>
        simp only [List.getElem?_cons_succ] at hk ⊢
        exact hvget k' i hk

lemma selectRows_map_succ (a : α) (t : List α) :
    ∀ ixs : List Nat, selectRows (a :: t) (ixs.map (· + 1)) = selectRows t ixs := by
  intro ixs
  induction ixs with
  | nil => rfl
  | cons j s ih =>
    simp only [List.map_cons]
    unfold selectRows
    rw [ih]
    have : (a :: t).get? (j + 1) = t.get? j := by simp
    rw [this]

lemma selectRows_range (l : List α) :
    selectRows l (List.range l.length) = some l := by
  induction l with
  | nil => rfl
  | cons a t ih =>
    rw [List.length_cons, List.range_succ_eq_map]
    unfold selectRows
    have h1 : (a :: t).get? 0 = some a := rfl
    rw [h1]
    have h2 : selectRows (a :: t) ((List.range t.length).map Nat.succ)
        = selectRows t (List.range t.length) := selectRows_map_succ a t _
    rw [h2, ih]

lemma np_searchsorted_range (n j : Nat) :
    np_searchsorted (List.range n) j = min j n := by
  induction n with
  | zero => simp [np_searchsorted]
  | succ k ih =>
    unfold np_searchsorted at ih ⊢
    rw [List.range_succ, List.countP_append]
    simp only [List.countP_cons, List.countP_nil]
    rcases Nat.lt_or_ge k j with hkj | hjk
    · simp only [decide_eq_true_eq, hkj, if_true]
      omega
    · have : ¬ (k < j) := Nat.not_lt.2 hjk
      simp only [decide_eq_true_eq, this, if_false]
      omega

lemma flatten_map_map (f : Nat → Nat) (L : List (List Nat)) :
    (L.map (List.map f)).flatten = L.flatten.map f :=
  (List.map_flatten f L).symm

lemma selectRows_length {verts : List α} :
    ∀ {ixs : List Nat} {v : List α}, selectRows verts ixs = some v →
      v.length = ixs.length := by
  intro ixs
  induction ixs with
  | nil =>
    intro v h
    unfold selectRows at h
    simp at h
    simp [← h]
  | cons j t ih =>
    intro v h
    unfold selectRows at h
    cases hg : verts.get? j with
    | none => rw [hg] at h; simp at h
    | some a =>
      rw [hg] at h
      cases hs : selectRows verts t with
      | none => rw [hs] at h; simp at h
      | some vs =>
        rw [hs] at h
        simp at h
        rw [← h]
        simp [ih hs]

/-! ### Claims -/

/-- C1 counterexample: a uniform integer matrix of shape `(0, 3)` (zero rows,
width 3, all values vacuously in `[0, 1)`) encodes to an empty flat array,
and decoding it with cell count `M = 0` fails (division by zero) instead of
returning the matrix, so the round-trip does not hold for `M = 0`. -/
theorem roundtrip_fails_on_zero_rows :
    ((⟨[], 3⟩ : NpIntMat).WF ∧ 1 ≤ (⟨[], 3⟩ : NpIntMat).ncols ∧
      (∀ x ∈ (⟨[], 3⟩ : NpIntMat).rows.flatten, x < 1)) ∧
    vtk_cellarray_to_shape (numpy_to_vtk_cells ⟨[], 3⟩).data
      (⟨[], 3⟩ : NpIntMat).rows.length = none ∧
    vtk_cellarray_to_shape (numpy_to_vtk_cells ⟨[], 3⟩).data
      (⟨[], 3⟩ : NpIntMat).rows.length ≠ some (⟨[], 3⟩ : NpIntMat).rows := by
  refine ⟨⟨?_, ?_, ?_⟩, ?_, ?_⟩ <;> decide

/-- C1 (amended): for every uniform 2-D integer matrix of shape `(M, K)` with
`M ≥ 1`, `K ≥ 1` and all values in `[0, V)`, decoding the flat encoding with
cell count `M` returns the matrix: `vtk_cellarray_to_shape` after
`numpy_to_vtk_cells` is the identity. -/
theorem encode_decode_roundtrip (m : NpIntMat) (V : Nat) (hwf : m.WF)
    (hK : 1 ≤ m.ncols) (hM : 1 ≤ m.rows.length)
    (hV : ∀ x ∈ m.rows.flatten, x < V) :
    vtk_cellarray_to_shape (numpy_to_vtk_cells m).data m.rows.length
      = some m.rows := by
  apply decode_encode m hwf
  intro h
  rw [h] at hM
  simp at hM

/-- C1 witness: the round-trip at the concrete matrix `[[1,2,3],[4,5,6]]`
(shape `(2,3)`, values below 7). -/
theorem encode_decode_roundtrip_witness :
    vtk_cellarray_to_shape (numpy_to_vtk_cells ⟨[[1, 2, 3], [4, 5, 6]], 3⟩).data
      (⟨[[1, 2, 3], [4, 5, 6]], 3⟩ : NpIntMat).rows.length
      = some [[1, 2, 3], [4, 5, 6]] :=
  encode_decode_roundtrip ⟨[[1, 2, 3], [4, 5, 6]], 3⟩ 7
    (by decide) (by decide) (by decide) (by decide)

/-- C2 counterexample: `trimesh_to_vtk` with a non-empty width-3 edges matrix
does not fail with the DimensionError ValueError; it succeeds and encodes the
width-3 edges (even out-of-bounds ones) into the line cell array as-is. -/
theorem trimesh_to_vtk_wide_edges_accepted :
    trimesh_to_vtk [[0, 0, 0]] ⟨[[0, 0, 0]], 3⟩ (some ⟨[[0, 0, 0]], 3⟩)
      = .ok ⟨[[0, 0, 0]], some ⟨1, [3, 0, 0, 0]⟩, some ⟨1, [3, 0, 0, 0]⟩⟩ ∧
    trimesh_to_vtk [[0, 0, 0]] ⟨[[0, 0, 0]], 3⟩ (some ⟨[[0, 0, 0]], 3⟩)
      ≠ .error .dimension := by
  refine ⟨?_, ?_⟩ <;> decide

/-- C2 (amended): `trimesh_to_vtk` with a width-4 faces matrix fails with the
DimensionError ValueError, but a given non-empty edges matrix is never
validated: whatever its width or entries, it is encoded as-is into the line
cell array and the call succeeds (no DimensionError, no IndexRangeError for
edges). -/
theorem trimesh_to_vtk_shape_enforcement (verts : List (List Int))
    (tris4 : NpIntMat) (ge : Option NpIntMat) (tris e : NpIntMat) (mx : Nat)
    (h4 : tris4.ncols = 4) (h3 : tris.ncols = 3)
    (hmx : np_max tris.rows.flatten = some mx) (hlt : mx < verts.length)
    (hne : e.rows ≠ []) :
    trimesh_to_vtk verts tris4 ge = .error .dimension ∧
    trimesh_to_vtk verts tris (some e)
      = .ok ⟨verts, some (numpy_to_vtk_cells tris), some (numpy_to_vtk_cells e)⟩ := by
  constructor
  · unfold trimesh_to_vtk
    rw [h4]
    simp
  · have hpos : 0 < e.rows.length := List.length_pos.2 hne
    unfold trimesh_to_vtk numpy_rep_to_vtk
    rw [h3, hmx]
    simp [Nat.not_le.2 hlt, hpos]

/-- C2 witness: a `(1,4)` faces matrix is rejected with DimensionError while
a deliberately malformed `(1,3)` edges matrix with out-of-range indices is
accepted untouched. -/
theorem trimesh_to_vtk_shape_enforcement_witness :
    trimesh_to_vtk [[0, 0, 0], [1, 0, 0]] ⟨[[0, 1, 0, 1]], 4⟩ none
      = .error .dimension ∧
    trimesh_to_vtk [[0, 0, 0], [1, 0, 0]] ⟨[[0, 1, 1]], 3⟩ (some ⟨[[5, 7, 9]], 3⟩)
      = .ok ⟨[[0, 0, 0], [1, 0, 0]],
          some (numpy_to_vtk_cells ⟨[[0, 1, 1]], 3⟩),
          some (numpy_to_vtk_cells ⟨[[5, 7, 9]], 3⟩)⟩ :=
  trimesh_to_vtk_shape_enforcement [[0, 0, 0], [1, 0, 0]] ⟨[[0, 1, 0, 1]], 4⟩
    none ⟨[[0, 1, 1]], 3⟩ ⟨[[5, 7, 9]], 3⟩ 1
    (by decide) (by decide) (by decide) (by decide) (by decide)

/-- C3: when a faces matrix on `V` vertices contains the index `V` and no
larger entry, `trimesh_to_vtk` fails with the IndexRangeError ValueError
whose message formats in the offending index `V`; `graph_to_vtk` applies the
same bounds rule to its edges matrix. -/
theorem bounds_enforcement (verts : List (List Int)) (tris : NpIntMat)
    (ge : Option NpIntMat) (verts2 : List (List Int)) (edges : NpIntMat)
    (h3 : tris.ncols = 3) (hmem : verts.length ∈ tris.rows.flatten)
    (hub : ∀ x ∈ tris.rows.flatten, x ≤ verts.length)
    (h2 : edges.ncols = 2) (hmem2 : verts2.length ∈ edges.rows.flatten)
    (hub2 : ∀ x ∈ edges.rows.flatten, x ≤ verts2.length) :
    trimesh_to_vtk verts tris ge = .error (.indexRange verts.length) ∧
    graph_to_vtk verts2 edges = .error (.indexRange verts2.length) := by
  have hm : np_max tris.rows.flatten = some verts.length := np_max_eq_of hmem hub
  have hm2 : np_max edges.rows.flatten = some verts2.length := np_max_eq_of hmem2 hub2
  constructor
  · unfold trimesh_to_vtk
    rw [h3, hm]
    simp
  · unfold graph_to_vtk
    rw [h2, hm2]
    simp

/-- C3 witness: one vertex (`V = 1`), faces `[[0,1,0]]` and edges `[[0,1]]`
containing the out-of-bounds index 1; both builders report index 1. -/
theorem bounds_enforcement_witness :
    trimesh_to_vtk [[0, 0, 0]] ⟨[[0, 1, 0]], 3⟩ none
      = .error (.indexRange 1) ∧
    graph_to_vtk [[0, 0, 0]] ⟨[[0, 1]], 2⟩ = .error (.indexRange 1) :=
  bounds_enforcement [[0, 0, 0]] ⟨[[0, 1, 0]], 3⟩ none [[0, 0, 0]] ⟨[[0, 1]], 2⟩
    (by decide) (by decide) (by decide) (by decide) (by decide) (by decide)

/-- C10: a zero-row `(0,3)` faces matrix in `trimesh_to_vtk` and a zero-row
`(0,2)` edges matrix in `graph_to_vtk` pass the width check but raise the
zero-size-reduction error at the `np.max` bounds check, instead of producing
a mesh with no cells. -/
theorem empty_cell_matrix_errors (verts : List (List Int))
    (ge : Option NpIntMat) :
    trimesh_to_vtk verts ⟨[], 3⟩ ge = .error .emptyMax ∧
    graph_to_vtk verts ⟨[], 2⟩ = .error .emptyMax :=
  ⟨rfl, rfl⟩

/-- C5: building a mesh with an explicitly empty edges list is identical to
building it with no edges: no line cell array is attached, and decomposing
the result yields `None` for edges (and the face matrix back). -/
theorem empty_edges_normalization (verts : List (List Int)) (tris : NpIntMat)
    (k : Nat) (hwf : tris.WF) :
    trimesh_to_vtk verts tris (some ⟨[], k⟩) = trimesh_to_vtk verts tris none ∧
    ∀ p, trimesh_to_vtk verts tris none = .ok p →
      p.lines = none ∧
      poly_to_mesh_components p = some (p.points, some tris.rows, none) := by
  constructor
  · rfl
  · intro p hp
    unfold trimesh_to_vtk at hp
    split at hp
    · exact absurd hp (by simp)
    · split at hp
      next heq =>
        exact absurd hp (by simp)
      next mx heq =>
        split at hp
        · exact absurd hp (by simp)
        · have hp2 : p = ⟨verts, some (numpy_to_vtk_cells tris), none⟩ := by
            cases hp
            rfl
          subst hp2
          refine ⟨rfl, ?_⟩
          have hne : tris.rows ≠ [] := by
            intro hnil
            rw [hnil] at heq
            simp [np_max] at heq
          have hpos : 0 < tris.rows.length := List.length_pos.2 hne
          have hdec := decode_encode tris hwf hne
          unfold poly_to_mesh_components
          have hc1 : decode_component
              (⟨verts, some (numpy_to_vtk_cells tris), none⟩ : PolyData).polysData
              (⟨verts, some (numpy_to_vtk_cells tris), none⟩ : PolyData).numberOfPolys
              = some (some tris.rows) := by
            unfold decode_component
            have hpos' : 0 < (⟨verts, some (numpy_to_vtk_cells tris), none⟩ :
                PolyData).numberOfPolys := hpos
            rw [if_pos hpos']
            show (vtk_cellarray_to_shape (numpy_to_vtk_cells tris).data
              tris.rows.length).map some = _
            rw [hdec]
            rfl
          have hc2 : decode_component
              (⟨verts, some (numpy_to_vtk_cells tris), none⟩ : PolyData).linesData
              (⟨verts, some (numpy_to_vtk_cells tris), none⟩ : PolyData).numberOfLines
              = some none := rfl
          rw [hc1, hc2]

/-- C5 witness: concrete mesh with `edges=[]` versus `edges=None`, and the
decomposition of the built polydata returning the faces and edges `None`. -/
theorem empty_edges_normalization_witness :
    trimesh_to_vtk [[0, 0, 0], [1, 0, 0]] ⟨[[0, 1, 0]], 3⟩ (some ⟨[], 17⟩)
      = trimesh_to_vtk [[0, 0, 0], [1, 0, 0]] ⟨[[0, 1, 0]], 3⟩ none ∧
    ((⟨[[0, 0, 0], [1, 0, 0]], some ⟨1, [3, 0, 1, 0]⟩, none⟩ : PolyData).lines = none ∧
      poly_to_mesh_components ⟨[[0, 0, 0], [1, 0, 0]], some ⟨1, [3, 0, 1, 0]⟩, none⟩
        = some ((⟨[[0, 0, 0], [1, 0, 0]], some ⟨1, [3, 0, 1, 0]⟩, none⟩ : PolyData).points,
            some (⟨[[0, 1, 0]], 3⟩ : NpIntMat).rows, none)) :=
  ⟨(empty_edges_normalization [[0, 0, 0], [1, 0, 0]] ⟨[[0, 1, 0]], 3⟩ 17 (by decide)).1,
    (empty_edges_normalization [[0, 0, 0], [1, 0, 0]] ⟨[[0, 1, 0]], 3⟩ 17 (by decide)).2
      ⟨[[0, 0, 0], [1, 0, 0]], some ⟨1, [3, 0, 1, 0]⟩, none⟩ (by decide)⟩

/-- C6: for a cell count `ncells ≥ 1`, the decoder fails (with the
reshape ShapeError) when the flat length is not divisible by `ncells`, and
otherwise returns `ncells` rows where row `i` is the slice of width
`len/ncells` starting at `i * (len/ncells)` with its first (width-prefix)
entry dropped. -/
theorem decode_cells_spec (flat : List Nat) (ncells : Nat) (h1 : 1 ≤ ncells) :
    (¬ ncells ∣ flat.length → vtk_cellarray_to_shape flat ncells = none) ∧
    (ncells ∣ flat.length →
      ∃ rows, vtk_cellarray_to_shape flat ncells = some rows ∧
        rows.length = ncells ∧
        ∀ i, i < ncells →
          rows[i]? = some (((flat.drop (i * (flat.length / ncells))).take
            (flat.length / ncells)).drop 1)) := by
  have h0 : ncells ≠ 0 := by omega
  constructor
  · intro hnd
    unfold vtk_cellarray_to_shape
    rw [if_neg h0, if_neg]
    intro hmod
    exact hnd (Nat.dvd_iff_mod_eq_zero.mpr hmod)
  · intro hd
    have hmod : flat.length % ncells = 0 := Nat.dvd_iff_mod_eq_zero.mp hd
    refine ⟨(np_reshape flat ncells (flat.length / ncells)).map (fun r => r.drop 1),
      ?_, ?_, ?_⟩
    · unfold vtk_cellarray_to_shape
      rw [if_neg h0, if_pos hmod]
    · simp [np_reshape]
    · intro i hi
      unfold np_reshape
      rw [List.getElem?_map, List.getElem?_map, List.getElem?_range hi]
      rfl

/-- C6 witness: a flat array of length 5 with a stated cell count of 2 is
rejected (5 is not divisible by 2). -/
theorem decode_cells_spec_witness :
    vtk_cellarray_to_shape [3, 1, 2, 3, 9] 2 = none :=
  (decode_cells_spec [3, 1, 2, 3, 9] 2 (by decide)).1 (by decide)

/-- C7: on any polydata whose present cell arrays decode, decomposition
returns the point data, the decoded faces matrix when the poly count is
positive and `None` when it is zero, and likewise for lines. -/
theorem poly_decompose_spec (p : PolyData) (T E : List (List Nat))
    (ht : 0 < p.numberOfPolys →
      vtk_cellarray_to_shape p.polysData p.numberOfPolys = some T)
    (he : 0 < p.numberOfLines →
      vtk_cellarray_to_shape p.linesData p.numberOfLines = some E) :
    poly_to_mesh_components p
      = some (p.points,
          if 0 < p.numberOfPolys then some T else none,
          if 0 < p.numberOfLines then some E else none) := by
  unfold poly_to_mesh_components decode_component
  by_cases hp : 0 < p.numberOfPolys <;> by_cases hl : 0 < p.numberOfLines
  · rw [if_pos hp, if_pos hl, if_pos hp, if_pos hl, ht hp, he hl]
    rfl
  · rw [if_pos hp, if_neg hl, if_pos hp, if_neg hl, ht hp]
    rfl
  · rw [if_neg hp, if_pos hl, if_neg hp, if_pos hl, he hl]
    rfl
  · rw [if_neg hp, if_neg hl, if_neg hp, if_neg hl]

/-- C7 witness: a polydata with one decoded triangle and no lines decomposes
to the points, the face matrix, and `None` for edges. -/
theorem poly_decompose_spec_witness :
    poly_to_mesh_components ⟨[[5, 5, 5]], some ⟨1, [3, 0, 1, 2]⟩, none⟩
      = some ([[5, 5, 5]], some [[0, 1, 2]], none) :=
  poly_decompose_spec ⟨[[5, 5, 5]], some ⟨1, [3, 0, 1, 2]⟩, none⟩ [[0, 1, 2]] []
    (by decide) (by decide)

/-- C4: when every entry of the faces matrix is a valid vertex index and
compaction returns `(nv, nf)`: compaction succeeds, `nv` consists of the rows
of `verts` at the sorted distinct indices referenced in faces, `nf` has the
same shape as faces with every entry remapped to the rank (index) of the old
entry in that sorted-unique set, every entry of `nf` is in `[0, nv.length)`,
no row of `nv` is unreferenced by `nf`, and on the concrete spec example
`verts = [[0,0,0],[1,0,0],[2,0,0],[3,0,0]]`, `faces = [[1,2,3]]` it returns
`([[1,0,0],[2,0,0],[3,0,0]], [[0,1,2]])`. -/
theorem remove_unused_verts_spec (α : Type) (verts : List α) (faces : NpIntMat)
    (nv : List α) (nf : NpIntMat)
    (hb : ∀ x ∈ faces.rows.flatten, x < verts.length)
    (h : remove_unused_verts verts faces = some (nv, nf)) :
    (remove_unused_verts verts faces).isSome = true ∧
    nv.length = (np_unique faces.rows.flatten).length ∧
    (∀ k i : Nat, (np_unique faces.rows.flatten)[k]? = some i →
      nv[k]? = verts[i]?) ∧
    List.Sorted (· < ·) (np_unique faces.rows.flatten) ∧
    (∀ x, x ∈ np_unique faces.rows.flatten ↔ x ∈ faces.rows.flatten) ∧
    nf = ⟨faces.rows.map (fun row =>
      row.map (fun x => (np_unique faces.rows.flatten).indexOf x)), faces.ncols⟩ ∧
    nf.rows.map List.length = faces.rows.map List.length ∧
    (∀ y ∈ nf.rows.flatten, y < nv.length) ∧
    (∀ j, j < nv.length → j ∈ nf.rows.flatten) ∧
    remove_unused_verts ([[0, 0, 0], [1, 0, 0], [2, 0, 0], [3, 0, 0]] : List (List Int))
        ⟨[[1, 2, 3]], 3⟩
      = some ([[1, 0, 0], [2, 0, 0], [3, 0, 0]], ⟨[[0, 1, 2]], 3⟩) := by
  have h0 := h
  have hsorted := np_unique_sorted faces.rows.flatten
  have hub : ∀ i ∈ np_unique faces.rows.flatten, i < verts.length :=
    fun i hi => hb i (mem_np_unique.1 hi)
  unfold remove_unused_verts at h
  cases hsel : selectRows verts (np_unique faces.rows.flatten) with
  | none =>
    rw [hsel] at h
    exact absurd h (by simp)
  | some v =>
    rw [hsel] at h
    simp only [Option.some.injEq, Prod.mk.injEq] at h
    obtain ⟨hv, hnf⟩ := h
    subst hv
    have hvlen : v.length = (np_unique faces.rows.flatten).length :=
      selectRows_length hsel
    obtain ⟨v2, hv2, _, hget2⟩ := selectRows_spec verts (np_unique faces.rows.flatten) hub
    have hv2v : v2 = v := Option.some.inj (hv2.symm.trans hsel)
    subst hv2v
    have hflat : nf.rows.flatten
        = faces.rows.flatten.map (np_searchsorted (np_unique faces.rows.flatten)) := by
      rw [← hnf]
      exact flatten_map_map _ _
    refine ⟨by rw [h0]; rfl, hvlen, hget2, hsorted, fun x => mem_np_unique, ?_, ?_, ?_, ?_,
      by decide⟩
    · rw [← hnf]
      refine congrArg (fun r => NpIntMat.mk r faces.ncols) ?_
      apply List.map_congr_left
      intro row hrow
      apply List.map_congr_left
      intro x hx
      exact np_searchsorted_indexOf hsorted
        (mem_np_unique.2 (List.mem_flatten_of_mem hrow hx))
    · rw [← hnf]
      rw [List.map_map]
      apply List.map_congr_left
      intro row _
      simp
    · intro y hy
      rw [hflat] at hy
      obtain ⟨x, hx, rfl⟩ := List.mem_map.1 hy
      rw [hvlen]
      exact np_searchsorted_lt_length (mem_np_unique.2 hx)
    · intro j hj
      rw [hvlen] at hj
      rw [hflat]
      refine List.mem_map.2 ⟨(np_unique faces.rows.flatten)[j], ?_, ?_⟩
      · exact mem_np_unique.1 (List.getElem_mem hj)
      · exact np_searchsorted_getElem _ hsorted j hj

/-- C4 witness: compaction succeeds on the spec's concrete example. -/
theorem remove_unused_verts_spec_witness :
    (remove_unused_verts
      ([[0, 0, 0], [1, 0, 0], [2, 0, 0], [3, 0, 0]] : List (List Int))
      ⟨[[1, 2, 3]], 3⟩).isSome = true :=
  (remove_unused_verts_spec (List Int)
    [[0, 0, 0], [1, 0, 0], [2, 0, 0], [3, 0, 0]] ⟨[[1, 2, 3]], 3⟩
    [[1, 0, 0], [2, 0, 0], [3, 0, 0]] ⟨[[0, 1, 2]], 3⟩
    (by decide) (by decide)).1

/-- C8: compaction is idempotent: whenever `remove_unused_verts` returns
`(nv, nf)`, applying it again to `(nv, nf)` returns `(nv, nf)` unchanged,
since after one pass every remaining vertex is referenced. -/
theorem remove_unused_verts_idempotent {α : Type} (verts : List α)
    (faces : NpIntMat) (nv : List α) (nf : NpIntMat)
    (h : remove_unused_verts verts faces = some (nv, nf)) :
    remove_unused_verts nv nf = some (nv, nf) := by
  have hsorted := np_unique_sorted faces.rows.flatten
  unfold remove_unused_verts at h
  cases hsel : selectRows verts (np_unique faces.rows.flatten) with
  | none =>
    rw [hsel] at h
    exact absurd h (by simp)
  | some v =>
    rw [hsel] at h
    simp only [Option.some.injEq, Prod.mk.injEq] at h
    obtain ⟨hv, hnf⟩ := h
    subst hv
    subst hnf
    have hvlen : v.length = (np_unique faces.rows.flatten).length :=
      selectRows_length hsel
    have hmem_iff : ∀ y,
        y ∈ (faces.rows.map (fun row =>
          row.map (np_searchsorted (np_unique faces.rows.flatten)))).flatten
        ↔ y < (np_unique faces.rows.flatten).length := by
      intro y
      rw [show (faces.rows.map (fun row =>
          row.map (np_searchsorted (np_unique faces.rows.flatten)))).flatten
        = faces.rows.flatten.map (np_searchsorted (np_unique faces.rows.flatten))
        from flatten_map_map _ _]
      constructor
      · intro hy
        obtain ⟨x, hx, rfl⟩ := List.mem_map.1 hy
        exact np_searchsorted_lt_length (mem_np_unique.2 hx)
      · intro hy
        refine List.mem_map.2 ⟨(np_unique faces.rows.flatten)[y], ?_, ?_⟩
        · exact mem_np_unique.1 (List.getElem_mem hy)
        · exact np_searchsorted_getElem _ hsorted y hy
    have huniq : np_unique (faces.rows.map (fun row =>
          row.map (np_searchsorted (np_unique faces.rows.flatten)))).flatten
        = List.range (np_unique faces.rows.flatten).length := by
      apply List.eq_of_perm_of_sorted (r := (· ≤ ·))
      · apply (List.perm_ext_iff_of_nodup (np_unique_nodup _) (List.nodup_range _)).2
        intro y
        rw [mem_np_unique, List.mem_range, hmem_iff]
      · exact (np_unique_sorted _).imp (fun hlt => Nat.le_of_lt hlt)
      · exact List.sorted_le_range _
    have hsel2 : selectRows v (np_unique (faces.rows.map (fun row =>
          row.map (np_searchsorted (np_unique faces.rows.flatten)))).flatten)
        = some v := by
      rw [huniq, ← hvlen, selectRows_range]
    have hremap : (faces.rows.map (fun row =>
          row.map (np_searchsorted (np_unique faces.rows.flatten)))).map
        (fun row => row.map (np_searchsorted (np_unique (faces.rows.map (fun row =>
          row.map (np_searchsorted (np_unique faces.rows.flatten)))).flatten)))
        = faces.rows.map (fun row =>
          row.map (np_searchsorted (np_unique faces.rows.flatten))) := by
      rw [huniq]
      have hrow : ∀ row ∈ faces.rows.map (fun row =>
          row.map (np_searchsorted (np_unique faces.rows.flatten))),
          row.map (np_searchsorted (List.range (np_unique faces.rows.flatten).length))
          = row := by
        intro row hrow
        have hmapid : row.map (np_searchsorted (List.range
            (np_unique faces.rows.flatten).length)) = row.map id := by
          apply List.map_congr_left
          intro y hy
          have hylt : y < (np_unique faces.rows.flatten).length :=
            (hmem_iff y).1 (List.mem_flatten_of_mem hrow hy)
          show np_searchsorted (List.range (np_unique faces.rows.flatten).length) y = y
          rw [np_searchsorted_range, Nat.min_eq_left (Nat.le_of_lt hylt)]
        rw [hmapid, List.map_id]
      have houter : (faces.rows.map (fun row =>
            row.map (np_searchsorted (np_unique faces.rows.flatten)))).map
          (fun row => row.map (np_searchsorted (List.range
            (np_unique faces.rows.flatten).length)))
          = (faces.rows.map (fun row =>
            row.map (np_searchsorted (np_unique faces.rows.flatten)))).map id :=
        List.map_congr_left hrow
      rw [houter, List.map_id]
    unfold remove_unused_verts
    rw [hsel2, hremap]

/-- C8 witness: idempotence at the compacted form of the spec's concrete
example. -/
theorem remove_unused_verts_idempotent_witness :
    remove_unused_verts ([[1, 0, 0], [2, 0, 0], [3, 0, 0]] : List (List Int))
        ⟨[[0, 1, 2]], 3⟩
      = some ([[1, 0, 0], [2, 0, 0], [3, 0, 0]], ⟨[[0, 1, 2]], 3⟩) :=
  remove_unused_verts_idempotent
    [[0, 0, 0], [1, 0, 0], [2, 0, 0], [3, 0, 0]] ⟨[[1, 2, 3]], 3⟩
    [[1, 0, 0], [2, 0, 0], [3, 0, 0]] ⟨[[0, 1, 2]], 3⟩ (by decide)

end MeshParty
